import Mathlib

set_option linter.unusedVariables false

/-!
Verification of the ERC1155 multi-token ledger in
src/example/erc1155/lib.rs (module erc1155 of the ink contract).

Modelling choices, each traced to the source:
* AccountId is a 32-byte value in ink; we model it as Nat, with 0 standing
  for the null sentinel AccountId::from([0x0; 32]).
* TokenId = u32 and TokenBalance = u128 are modelled as Nat; the source
  does no arithmetic on TokenId, and all TokenBalance arithmetic is
  checked (per the build profile of ink contracts, overflow aborts the
  call instead of wrapping), which we model explicitly: subtraction only
  happens after the source checks from_balance >= value, and addition
  goes through checkedAdd, which aborts (Outcome.panic) when the sum
  does not fit in 128 bits.
* ink StorageHashMap is modelled as an association list with
  insert-or-replace semantics (StorageHashMap::insert) and optional
  lookup (StorageHashMap::get / get_mut).
* Each ink message receives the caller from the environment; here the
  caller is an explicit first argument. Event emission has no effect on
  the two maps and is not modelled.
* A mutating message returns Result<(), Error>; returning Err does not
  roll back already-performed writes (the host does, at the transaction
  boundary), so an operation maps a state to an Outcome that carries the
  (possibly partially mutated) state on both ok and err.
-/

namespace Erc1155Lib

/-- AccountId: 32-byte identity, modelled as Nat; 0 is the null sentinel. -/
abbrev AccountId := Nat

/-- pub type TokenId = u32 -/
abbrev TokenId := Nat

/-- pub type TokenBalance = u128 -/
abbrev TokenBalance := Nat

/-- Number of values of u128; a TokenBalance is always < U128MOD. -/
def U128MOD : Nat := 2 ^ 128

/-- The null sentinel AccountId::from([0x0; 32]). -/
def zero_account : AccountId := 0

/-- The Error enum of the contract, verbatim. -/
inductive Error
  | InsufficientBalance
  | NotOwnerOrNotApproved
  | ApprovalForSelf
  | InvalidArrayLength
  | InvalidZeroAccount
  | CannotFetchValue
  | CannotInsert
deriving DecidableEq

/-- StorageHashMap::get, on the association-list model. -/
def lookupKV {κ ν : Type} [DecidableEq κ] : List (κ × ν) → κ → Option ν
  | [], _ => none
  | (k', v') :: rest, k => if k' = k then some v' else lookupKV rest k

/-- StorageHashMap::insert: replace the value at the key, or append. -/
def insertKV {κ ν : Type} [DecidableEq κ] : List (κ × ν) → κ → ν → List (κ × ν)
  | [], k, v => [(k, v)]
  | (k', v') :: rest, k, v =>
      if k' = k then (k, v) :: rest else (k', v') :: insertKV rest k v

/-- The contract storage: balances and operator_approvals. -/
structure Erc1155 where
  balances : List ((AccountId × TokenId) × TokenBalance)
  operator_approvals : List ((AccountId × AccountId) × Bool)
deriving DecidableEq

/-- Constructor new(): both maps empty. -/
def Erc1155.new : Erc1155 :=
  { balances := [], operator_approvals := [] }

/-- Result of a mutating message: ok or err carry the resulting storage
(err does not roll back earlier writes of the same call); panic is a
checked-arithmetic abort, after which the host discards all writes. -/
inductive Outcome (σ : Type)
  | ok (s : σ)
  | err (e : Error) (s : σ)
  | panic
deriving DecidableEq

/-- u128 addition under checked arithmetic: aborts instead of wrapping. -/
def checkedAdd (a b : Nat) : Option Nat :=
  if a + b < U128MOD then some (a + b) else none

/-- balance_of_or_zero: stored balance, or 0 when the entry is absent. -/
def Erc1155.balance_of_or_zero (s : Erc1155) (account : AccountId) (id : TokenId) : TokenBalance :=
  (lookupKV s.balances (account, id)).getD 0

/-- balance_of message: delegates to balance_of_or_zero. -/
def Erc1155.balance_of (s : Erc1155) (account : AccountId) (id : TokenId) : TokenBalance :=
  s.balance_of_or_zero account id

/-- approved_for_all: stored flag, or false when the entry is absent. -/
def Erc1155.approved_for_all (s : Erc1155) (account operator : AccountId) : Bool :=
  (lookupKV s.operator_approvals (account, operator)).getD false

/-- is_approved_for_all message: delegates to approved_for_all. -/
def Erc1155.is_approved_for_all (s : Erc1155) (account operator : AccountId) : Bool :=
  s.approved_for_all account operator

/-- balance_of_batch: length check, then pairwise balance_of_or_zero. -/
def Erc1155.balance_of_batch (s : Erc1155) (accounts : List AccountId) (ids : List TokenId) :
    Except Error (List TokenBalance) :=
  if accounts.length ≠ ids.length then .error .InvalidArrayLength
  else .ok ((accounts.zip ids).map fun ai => s.balance_of_or_zero ai.1 ai.2)

/-- set_approval_for_all(operator, approved); caller comes from env. -/
def Erc1155.set_approval_for_all (s : Erc1155) (caller operator : AccountId) (approved : Bool) :
    Outcome Erc1155 :=
  if operator = caller then .err .ApprovalForSelf s
  else if s.approved_for_all caller operator then
    match lookupKV s.operator_approvals (caller, operator) with
    | none => .err .CannotFetchValue s
    | some _ =>
        .ok { s with operator_approvals := insertKV s.operator_approvals (caller, operator) approved }
  else
    .ok { s with operator_approvals := insertKV s.operator_approvals (caller, operator) approved }

/-- transfer_token_from: debit from_, then credit to_, reading the credit
side after the debit write (relevant when from_ = to_). -/
def Erc1155.transfer_token_from (s : Erc1155) (from_ to_ : AccountId) (id : TokenId) (value : TokenBalance) :
    Outcome Erc1155 :=
  let from_balance := s.balance_of_or_zero from_ id
  if from_balance < value then .err .InsufficientBalance s
  else
    let s1 : Erc1155 := { s with balances := insertKV s.balances (from_, id) (from_balance - value) }
    let to_balance := s1.balance_of_or_zero to_ id
    match checkedAdd to_balance value with
    | some b => .ok { s1 with balances := insertKV s1.balances (to_, id) b }
    | none => .panic

/-- add_token_to: unconditional credit. -/
def Erc1155.add_token_to (s : Erc1155) (to_ : AccountId) (id : TokenId) (value : TokenBalance) :
    Outcome Erc1155 :=
  let to_balance := s.balance_of_or_zero to_ id
  match checkedAdd to_balance value with
  | some b => .ok { s with balances := insertKV s.balances (to_, id) b }
  | none => .panic

/-- remove_token_from: debit with underflow check. -/
def Erc1155.remove_token_from (s : Erc1155) (from_ : AccountId) (id : TokenId) (value : TokenBalance) :
    Outcome Erc1155 :=
  let from_balance := s.balance_of_or_zero from_ id
  if from_balance < value then .err .InsufficientBalance s
  else .ok { s with balances := insertKV s.balances (from_, id) (from_balance - value) }

/-- safe_transfer_from: null check on to_ only (the owner-or-approved
guard is commented out in the source), then transfer_token_from. -/
def Erc1155.safe_transfer_from (s : Erc1155) (caller from_ to_ : AccountId) (id : TokenId) (value : TokenBalance) :
    Outcome Erc1155 :=
  if to_ = zero_account then .err .InvalidZeroAccount s
  else s.transfer_token_from from_ to_ id value

/-- The for-loop of the batch messages: run step on each element in
order, stopping at the first err (the question-mark operator) or panic. -/
def runSteps {α : Type} (step : α → Erc1155 → Outcome Erc1155) :
    List α → Erc1155 → Outcome Erc1155
  | [], s => .ok s
  | x :: xs, s =>
      match step x s with
      | .ok s' => runSteps step xs s'
      | .err e s' => .err e s'
      | .panic => .panic

/-- safe_batch_transfer_from: length check, null check on to_, then the
transfer loop over the index range (modelled as the zip of the lists). -/
def Erc1155.safe_batch_transfer_from (s : Erc1155) (caller from_ to_ : AccountId)
    (ids : List TokenId) (values : List TokenBalance) : Outcome Erc1155 :=
  if ids.length ≠ values.length then .err .InvalidArrayLength s
  else if to_ = zero_account then .err .InvalidZeroAccount s
  else runSteps (fun iv t => t.transfer_token_from from_ to_ iv.1 iv.2) (ids.zip values) s

/-- mint: null check on to_, then add_token_to. -/
def Erc1155.mint (s : Erc1155) (caller to_ : AccountId) (id : TokenId) (value : TokenBalance) :
    Outcome Erc1155 :=
  if to_ = zero_account then .err .InvalidZeroAccount s
  else s.add_token_to to_ id value

/-- mint_batch: null check on to_ first, then length check, then the loop. -/
def Erc1155.mint_batch (s : Erc1155) (caller to_ : AccountId)
    (ids : List TokenId) (values : List TokenBalance) : Outcome Erc1155 :=
  if to_ = zero_account then .err .InvalidZeroAccount s
  else if ids.length ≠ values.length then .err .InvalidArrayLength s
  else runSteps (fun iv t => t.add_token_to to_ iv.1 iv.2) (ids.zip values) s

/-- burn: null check on from, then remove_token_from. -/
def Erc1155.burn (s : Erc1155) (caller from_ : AccountId) (id : TokenId) (value : TokenBalance) :
    Outcome Erc1155 :=
  if from_ = zero_account then .err .InvalidZeroAccount s
  else s.remove_token_from from_ id value

/-- burn_batch: null check on from first, then length check, then the loop. -/
def Erc1155.burn_batch (s : Erc1155) (caller from_ : AccountId)
    (ids : List TokenId) (values : List TokenBalance) : Outcome Erc1155 :=
  if from_ = zero_account then .err .InvalidZeroAccount s
  else if ids.length ≠ values.length then .err .InvalidArrayLength s
  else runSteps (fun iv t => t.remove_token_from from_ iv.1 iv.2) (ids.zip values) s

/-- The state after the debit write of the transfer rule (also the
whole effect of remove_token_from). -/
def debited (s : Erc1155) (from_ : AccountId) (id : TokenId) (value : TokenBalance) : Erc1155 :=
  { s with balances := insertKV s.balances (from_, id) (s.balance_of_or_zero from_ id - value) }

/-- The state after the debit write then the credit write of the
transfer rule; the credit side is read on the debited state. -/
def afterTransfer (s : Erc1155) (from_ to_ : AccountId) (id : TokenId) (value : TokenBalance) :
    Erc1155 :=
  let s1 := debited s from_ id value
  { s1 with balances := insertKV s1.balances (to_, id) (s1.balance_of_or_zero to_ id + value) }

/-- The state after the credit write of add_token_to. -/
def credited (s : Erc1155) (to_ : AccountId) (id : TokenId) (value : TokenBalance) : Erc1155 :=
  { s with balances := insertKV s.balances (to_, id) (s.balance_of_or_zero to_ id + value) }

/-- Every stored balance fits in u128. This holds of any storage the
contract can actually hold, the values being u128 in the source; it is
decidable on concrete states. -/
def balancesWF (s : Erc1155) : Prop := ∀ kb ∈ s.balances, kb.2 < U128MOD

instance balancesWF_decidable (s : Erc1155) : Decidable (balancesWF s) :=
  inferInstanceAs (Decidable (∀ kb ∈ s.balances, kb.2 < U128MOD))

/-- The state (ok or err) an outcome leaves in storage; panic aborts the
call, the host keeping the prior storage. -/
def outState {σ : Type} : Outcome σ → Option σ
  | .ok s => some s
  | .err _ s => some s
  | .panic => none

/-- Whether an outcome is a success. -/
def Outcome.isOk {σ : Type} : Outcome σ → Bool
  | .ok _ => true
  | _ => false

/-- The relation used for the approvals-untouched arguments. -/
def approvalsEq (s s' : Erc1155) : Prop := s'.operator_approvals = s.operator_approvals

/-! Reachable ledger states: the empty constructor state followed by any
sequence of contract calls, keeping the storage an outcome leaves (the
host only reverts on panic, so both ok and err storages count). -/

inductive Reachable : Erc1155 → Prop
  | new : Reachable Erc1155.new
  | set_approval_for_all {s s' : Erc1155} (caller operator : AccountId) (approved : Bool) :
      Reachable s → outState (s.set_approval_for_all caller operator approved) = some s' →
      Reachable s'
  | safe_transfer_from {s s' : Erc1155} (caller from_ to_ : AccountId) (id : TokenId)
      (value : TokenBalance) :
      Reachable s → outState (s.safe_transfer_from caller from_ to_ id value) = some s' →
      Reachable s'
  | safe_batch_transfer_from {s s' : Erc1155} (caller from_ to_ : AccountId)
      (ids : List TokenId) (values : List TokenBalance) :
      Reachable s → outState (s.safe_batch_transfer_from caller from_ to_ ids values) = some s' →
      Reachable s'
  | mint {s s' : Erc1155} (caller to_ : AccountId) (id : TokenId) (value : TokenBalance) :
      Reachable s → outState (s.mint caller to_ id value) = some s' → Reachable s'
  | mint_batch {s s' : Erc1155} (caller to_ : AccountId) (ids : List TokenId)
      (values : List TokenBalance) :
      Reachable s → outState (s.mint_batch caller to_ ids values) = some s' → Reachable s'
  | burn {s s' : Erc1155} (caller from_ : AccountId) (id : TokenId) (value : TokenBalance) :
      Reachable s → outState (s.burn caller from_ id value) = some s' → Reachable s'
  | burn_batch {s s' : Erc1155} (caller from_ : AccountId) (ids : List TokenId)
      (values : List TokenBalance) :
      Reachable s → outState (s.burn_batch caller from_ ids values) = some s' → Reachable s'

/-- Every key present in m is present in m2. -/
def keysMono {κ ν : Type} [DecidableEq κ] (m m2 : List (κ × ν)) : Prop :=
  ∀ k, (lookupKV m k).isSome → (lookupKV m2 k).isSome

/-- Both maps of s2 hold every key the corresponding map of s holds. -/
def stateMono (s s2 : Erc1155) : Prop :=
  keysMono s.balances s2.balances ∧ keysMono s.operator_approvals s2.operator_approvals

/-! Association-list map lemmas. -/

theorem lookupKV_insertKV_self {κ ν : Type} [DecidableEq κ] (m : List (κ × ν)) (k : κ) (v : ν) :
    lookupKV (insertKV m k v) k = some v := by
  induction m with
  | nil => simp [insertKV, lookupKV]
  | cons hd tl ih =>
      obtain ⟨k', v'⟩ := hd
      by_cases h : k' = k
      · simp [insertKV, lookupKV, h]
      · simp [insertKV, lookupKV, h, ih]

theorem lookupKV_insertKV_ne {κ ν : Type} [DecidableEq κ] (m : List (κ × ν)) (k k' : κ) (v : ν)
    (h : k' ≠ k) : lookupKV (insertKV m k v) k' = lookupKV m k' := by
  induction m with
  | nil => simp [insertKV, lookupKV, Ne.symm h]
  | cons hd tl ih =>
      obtain ⟨a, b⟩ := hd
      by_cases hak : a = k
      · subst hak
        simp [insertKV, lookupKV, Ne.symm h]
      · simp [insertKV, lookupKV, hak, ih]

theorem lookupKV_insertKV_isSome {κ ν : Type} [DecidableEq κ] (m : List (κ × ν)) (k k' : κ) (v : ν)
    (h : (lookupKV m k').isSome) : (lookupKV (insertKV m k v) k').isSome := by
  by_cases hk : k' = k
  · subst hk; rw [lookupKV_insertKV_self]; rfl
  · rw [lookupKV_insertKV_ne m k k' v hk]; exact h

/-- Two balance keys with distinct accounts are distinct. -/
theorem key_ne_of_account_ne {a b : AccountId} {i j : TokenId} (h : a ≠ b) :
    ((a, i) : AccountId × TokenId) ≠ (b, j) :=
  fun hc => h (congrArg Prod.fst hc)

/-! Helper characterizations of the single-item operations. -/

/-- Shared helper: the transfer rule rejects an undercovered debit,
touching nothing. -/
theorem transfer_token_from_lt (s : Erc1155) (from_ to_ : AccountId) (id : TokenId)
    (value : TokenBalance) (hlt : s.balance_of_or_zero from_ id < value) :
    s.transfer_token_from from_ to_ id value = .err .InsufficientBalance s := by
  unfold Erc1155.transfer_token_from
  simp [hlt]

/-- Shared helper: safe_transfer_from with enough balance missing. -/
theorem safe_transfer_from_lt (s : Erc1155) (caller from_ to_ : AccountId) (id : TokenId)
    (value : TokenBalance) (hto : to_ ≠ zero_account)
    (hlt : s.balance_of_or_zero from_ id < value) :
    s.safe_transfer_from caller from_ to_ id value = .err .InsufficientBalance s := by
  unfold Erc1155.safe_transfer_from
  rw [if_neg hto]
  exact transfer_token_from_lt s from_ to_ id value hlt

/-- C1 as stated is false: safe_transfer_from performs no null check on
the source account. On the empty ledger, with from = null sentinel,
to = 1 and value = 0, the call succeeds (and even writes two entries)
instead of failing with InvalidZeroAccount. -/
theorem safe_transfer_from_null_source_returns_ok :
    Erc1155.new.safe_transfer_from 1 zero_account 1 0 0 =
      .ok { balances := [((zero_account, 0), 0), ((1, 0), 0)], operator_approvals := [] } := by
  decide

/-- C1 (amended): safe_transfer_from has no null check on the source:
with from = null sentinel, non-null to, and value exceeding the null
account balance for id, it fails with InsufficientBalance (not
InvalidZeroAccount), leaving both maps unchanged. -/
theorem safe_transfer_from_null_source_insufficient_balance
    (s : Erc1155) (caller to_ : AccountId) (id : TokenId) (value : TokenBalance)
    (hto : to_ ≠ zero_account)
    (hlt : s.balance_of zero_account id < value) :
    s.safe_transfer_from caller zero_account to_ id value = .err .InsufficientBalance s :=
  safe_transfer_from_lt s caller zero_account to_ id value hto hlt

/-- Witness for C1 (amended) at a concrete input. -/
theorem safe_transfer_from_null_source_insufficient_balance_witness :
    Erc1155.new.safe_transfer_from 1 zero_account 2 0 1 = .err .InsufficientBalance Erc1155.new :=
  safe_transfer_from_null_source_insufficient_balance Erc1155.new 1 2 0 1
    (by decide) (by decide)

/-- C3: with a non-null destination and balance_of(from, id) < value,
safe_transfer_from fails with InsufficientBalance and returns the state
entirely unchanged. -/
theorem safe_transfer_from_insufficient_balance_rejected
    (s : Erc1155) (caller from_ to_ : AccountId) (id : TokenId) (value : TokenBalance)
    (hto : to_ ≠ zero_account)
    (hlt : s.balance_of from_ id < value) :
    s.safe_transfer_from caller from_ to_ id value = .err .InsufficientBalance s :=
  safe_transfer_from_lt s caller from_ to_ id value hto hlt

/-- Witness for C3 at a concrete input. -/
theorem safe_transfer_from_insufficient_balance_rejected_witness :
    Erc1155.new.safe_transfer_from 1 2 3 0 5 = .err .InsufficientBalance Erc1155.new :=
  safe_transfer_from_insufficient_balance_rejected Erc1155.new 1 2 3 0 5
    (by decide) (by decide)

/-- Shared helper: a successful transfer, written out. -/
theorem transfer_token_from_ok_eq (s : Erc1155) (from_ to_ : AccountId) (id : TokenId)
    (value : TokenBalance)
    (hge : ¬ s.balance_of_or_zero from_ id < value)
    (hov : (debited s from_ id value).balance_of_or_zero to_ id + value < U128MOD) :
    s.transfer_token_from from_ to_ id value = .ok (afterTransfer s from_ to_ id value) := by
  simp only [Erc1155.transfer_token_from, checkedAdd, afterTransfer, debited] at hov ⊢
  rw [if_neg hge, if_pos hov]

/-- Shared helper: inversion of a successful transfer. -/
theorem transfer_token_from_ok_inv {s s' : Erc1155} {from_ to_ : AccountId} {id : TokenId}
    {value : TokenBalance} (h : s.transfer_token_from from_ to_ id value = .ok s') :
    ¬ s.balance_of_or_zero from_ id < value ∧
    (debited s from_ id value).balance_of_or_zero to_ id + value < U128MOD ∧
    s' = afterTransfer s from_ to_ id value := by
  simp only [Erc1155.transfer_token_from, checkedAdd] at h
  simp only [afterTransfer, debited]
  by_cases hlt : s.balance_of_or_zero from_ id < value
  · rw [if_pos hlt] at h
    exact Outcome.noConfusion h
  · rw [if_neg hlt] at h
    by_cases hov : Erc1155.balance_of_or_zero
        { s with balances := insertKV s.balances (from_, id) (s.balance_of_or_zero from_ id - value) }
        to_ id + value < U128MOD
    · rw [if_pos hov] at h
      exact ⟨hlt, hov, (Outcome.ok.inj h).symm⟩
    · rw [if_neg hov] at h
      exact Outcome.noConfusion h

/-- Shared helper: a successful credit, written out. -/
theorem add_token_to_ok_eq (s : Erc1155) (to_ : AccountId) (id : TokenId) (value : TokenBalance)
    (hov : s.balance_of_or_zero to_ id + value < U128MOD) :
    s.add_token_to to_ id value = .ok (credited s to_ id value) := by
  simp only [Erc1155.add_token_to, checkedAdd, credited]
  rw [if_pos hov]

/-- Shared helper: inversion of a successful credit. -/
theorem add_token_to_ok_inv {s s' : Erc1155} {to_ : AccountId} {id : TokenId}
    {value : TokenBalance} (h : s.add_token_to to_ id value = .ok s') :
    s.balance_of_or_zero to_ id + value < U128MOD ∧ s' = credited s to_ id value := by
  simp only [Erc1155.add_token_to, checkedAdd] at h
  simp only [credited]
  by_cases hov : s.balance_of_or_zero to_ id + value < U128MOD
  · rw [if_pos hov] at h
    exact ⟨hov, (Outcome.ok.inj h).symm⟩
  · rw [if_neg hov] at h
    exact Outcome.noConfusion h

/-- Shared helper: a successful debit, written out. -/
theorem remove_token_from_ok_eq (s : Erc1155) (from_ : AccountId) (id : TokenId)
    (value : TokenBalance) (hge : ¬ s.balance_of_or_zero from_ id < value) :
    s.remove_token_from from_ id value = .ok (debited s from_ id value) := by
  simp only [Erc1155.remove_token_from, debited]
  rw [if_neg hge]

/-- Shared helper: inversion of a successful debit. -/
theorem remove_token_from_ok_inv {s s' : Erc1155} {from_ : AccountId} {id : TokenId}
    {value : TokenBalance} (h : s.remove_token_from from_ id value = .ok s') :
    ¬ s.balance_of_or_zero from_ id < value ∧ s' = debited s from_ id value := by
  simp only [Erc1155.remove_token_from] at h
  simp only [debited]
  by_cases hlt : s.balance_of_or_zero from_ id < value
  · rw [if_pos hlt] at h
    exact Outcome.noConfusion h
  · rw [if_neg hlt] at h
    exact ⟨hlt, (Outcome.ok.inj h).symm⟩

/-- C2: a successful safe_transfer_from with distinct accounts debits
the source by exactly value, credits the destination by exactly value,
and conserves the sum of the two balances for that token id. -/
theorem safe_transfer_from_conserves
    (s s' : Erc1155) (caller from_ to_ : AccountId) (id : TokenId) (value : TokenBalance)
    (hne : from_ ≠ to_)
    (h : s.safe_transfer_from caller from_ to_ id value = .ok s') :
    s'.balance_of from_ id + value = s.balance_of from_ id ∧
    s'.balance_of to_ id = s.balance_of to_ id + value ∧
    s'.balance_of from_ id + s'.balance_of to_ id
      = s.balance_of from_ id + s.balance_of to_ id := by
  have hto : to_ ≠ zero_account := by
    intro hc
    simp only [Erc1155.safe_transfer_from, if_pos hc] at h
    exact Outcome.noConfusion h
  simp only [Erc1155.safe_transfer_from, if_neg hto] at h
  obtain ⟨hge, hov, hs'⟩ := transfer_token_from_ok_inv h
  subst hs'
  have hkey : ((from_, id) : AccountId × TokenId) ≠ (to_, id) := key_ne_of_account_ne hne
  have hkey' : ((to_, id) : AccountId × TokenId) ≠ (from_, id) :=
    key_ne_of_account_ne (Ne.symm hne)
  simp only [Erc1155.balance_of_or_zero] at hge
  have hA : (afterTransfer s from_ to_ id value).balance_of from_ id + value
      = s.balance_of from_ id := by
    simp only [afterTransfer, debited, Erc1155.balance_of, Erc1155.balance_of_or_zero]
    rw [lookupKV_insertKV_ne _ _ _ _ hkey, lookupKV_insertKV_self]
    simp only [Option.getD_some]
    exact Nat.sub_add_cancel (Nat.le_of_not_lt hge)
  have hB : (afterTransfer s from_ to_ id value).balance_of to_ id
      = s.balance_of to_ id + value := by
    simp only [afterTransfer, debited, Erc1155.balance_of, Erc1155.balance_of_or_zero]
    rw [lookupKV_insertKV_self]
    simp only [Option.getD_some]
    rw [lookupKV_insertKV_ne _ _ _ _ hkey']
  refine ⟨hA, hB, ?_⟩
  rw [hB, ← hA, Nat.add_assoc, Nat.add_comm value]

/-- Witness for C2 at a concrete input. -/
theorem safe_transfer_from_conserves_witness :
    (Erc1155.mk [((1, 5), 7), ((2, 5), 3)] []).balance_of 1 5 + 3
        = (Erc1155.mk [((1, 5), 10)] []).balance_of 1 5 ∧
    (Erc1155.mk [((1, 5), 7), ((2, 5), 3)] []).balance_of 2 5
        = (Erc1155.mk [((1, 5), 10)] []).balance_of 2 5 + 3 ∧
    (Erc1155.mk [((1, 5), 7), ((2, 5), 3)] []).balance_of 1 5
        + (Erc1155.mk [((1, 5), 7), ((2, 5), 3)] []).balance_of 2 5
      = (Erc1155.mk [((1, 5), 10)] []).balance_of 1 5
        + (Erc1155.mk [((1, 5), 10)] []).balance_of 2 5 :=
  safe_transfer_from_conserves (Erc1155.mk [((1, 5), 10)] [])
    (Erc1155.mk [((1, 5), 7), ((2, 5), 3)] []) 9 1 2 5 3 (by decide) (by decide)

/-- A lookup hit returns an entry of the list. -/
theorem lookupKV_mem {κ ν : Type} [DecidableEq κ] {m : List (κ × ν)} {k : κ} {v : ν}
    (h : lookupKV m k = some v) : (k, v) ∈ m := by
  induction m with
  | nil => simp [lookupKV] at h
  | cons hd tl ih =>
      obtain ⟨a, b⟩ := hd
      by_cases hak : a = k
      · subst hak
        simp [lookupKV] at h
        subst h
        exact List.mem_cons_self _ _
      · simp only [lookupKV, if_neg hak] at h
        exact List.mem_cons_of_mem _ (ih h)

/-- A well-formed read is below U128MOD. -/
theorem balance_of_or_zero_lt_of_wf (s : Erc1155) (a : AccountId) (t : TokenId)
    (hwf : balancesWF s) : s.balance_of_or_zero a t < U128MOD := by
  unfold Erc1155.balance_of_or_zero
  cases hl : lookupKV s.balances (a, t) with
  | none =>
      simp only [Option.getD_none]
      unfold U128MOD
      positivity
  | some b =>
      simp only [Option.getD_some]
      exact hwf _ (lookupKV_mem hl)

/-- C10: a self-transfer with sufficient balance succeeds and leaves the
balance unchanged: the debit is written first and read back before the
credit, so the two writes compose to the identity. -/
theorem self_transfer_preserves_balance
    (s : Erc1155) (caller a : AccountId) (t : TokenId) (v : TokenBalance)
    (ha : a ≠ zero_account)
    (hv : v ≤ s.balance_of a t)
    (hwf : balancesWF s) :
    s.safe_transfer_from caller a a t v = .ok (afterTransfer s a a t v) ∧
    (afterTransfer s a a t v).balance_of a t = s.balance_of a t := by
  have hge : ¬ s.balance_of_or_zero a t < v := Nat.not_lt.mpr hv
  have htb : (debited s a t v).balance_of_or_zero a t = s.balance_of_or_zero a t - v := by
    simp only [debited, Erc1155.balance_of_or_zero]
    rw [lookupKV_insertKV_self]
    simp only [Option.getD_some]
  have hov : (debited s a t v).balance_of_or_zero a t + v < U128MOD := by
    rw [htb, Nat.sub_add_cancel (Nat.le_of_not_lt hge)]
    exact balance_of_or_zero_lt_of_wf s a t hwf
  constructor
  · simp only [Erc1155.safe_transfer_from, if_neg ha]
    exact transfer_token_from_ok_eq s a a t v hge hov
  · simp only [afterTransfer]
    rw [htb]
    simp only [Erc1155.balance_of, Erc1155.balance_of_or_zero]
    rw [lookupKV_insertKV_self]
    simp only [Option.getD_some]
    exact Nat.sub_add_cancel (Nat.le_of_not_lt hge)

/-- Witness for C10 at a concrete input. -/
theorem self_transfer_preserves_balance_witness :
    (Erc1155.mk [((1, 4), 5)] []).safe_transfer_from 2 1 1 4 3
        = .ok (afterTransfer (Erc1155.mk [((1, 4), 5)] []) 1 1 4 3) ∧
    (afterTransfer (Erc1155.mk [((1, 4), 5)] []) 1 1 4 3).balance_of 1 4
        = (Erc1155.mk [((1, 4), 5)] []).balance_of 1 4 :=
  self_transfer_preserves_balance (Erc1155.mk [((1, 4), 5)] []) 2 1 4 3
    (by decide) (by decide) (by decide)

/-- C5: minting value v to an account for a token id and then burning v
from the same account and id restores the pre-mint balance. -/
theorem mint_then_burn_restores_balance
    (s s1 s2 : Erc1155) (c to_ : AccountId) (t : TokenId) (v : TokenBalance)
    (hmint : s.mint c to_ t v = .ok s1)
    (hburn : s1.burn c to_ t v = .ok s2) :
    s2.balance_of to_ t = s.balance_of to_ t := by
  by_cases hto : to_ = zero_account
  · simp only [Erc1155.mint, if_pos hto] at hmint
    exact Outcome.noConfusion hmint
  simp only [Erc1155.mint, if_neg hto] at hmint
  obtain ⟨hov, hs1⟩ := add_token_to_ok_inv hmint
  subst hs1
  simp only [Erc1155.burn, if_neg hto] at hburn
  obtain ⟨hge, hs2⟩ := remove_token_from_ok_inv hburn
  subst hs2
  have hb1 : (credited s to_ t v).balance_of_or_zero to_ t = s.balance_of_or_zero to_ t + v := by
    simp only [credited, Erc1155.balance_of_or_zero]
    rw [lookupKV_insertKV_self]
    simp only [Option.getD_some]
  simp only [Erc1155.balance_of, debited]
  rw [hb1, Nat.add_sub_cancel]
  simp only [Erc1155.balance_of_or_zero]
  rw [lookupKV_insertKV_self]
  simp only [Option.getD_some]

/-- Witness for C5 at a concrete input. -/
theorem mint_then_burn_restores_balance_witness :
    (Erc1155.mk [((2, 7), 0)] []).balance_of 2 7 = Erc1155.new.balance_of 2 7 :=
  mint_then_burn_restores_balance Erc1155.new (Erc1155.mk [((2, 7), 100)] [])
    (Erc1155.mk [((2, 7), 0)] []) 1 2 7 100 (by decide) (by decide)

/-! Approval management. -/

/-- Shared helper: with a non-self operator, set_approval_for_all always
succeeds and records the flag with insert-or-update semantics; both the
update branch (get_mut on a present key) and the insert branch end in
the same stored map, and the CannotFetchValue arm cannot be taken
because a true flag read implies the key is present. -/
theorem set_approval_for_all_ok_eq (s : Erc1155) (caller operator : AccountId) (approved : Bool)
    (hne : operator ≠ caller) :
    s.set_approval_for_all caller operator approved =
      .ok { s with operator_approvals := insertKV s.operator_approvals (caller, operator) approved } := by
  simp only [Erc1155.set_approval_for_all, if_neg hne]
  cases hap : lookupKV s.operator_approvals (caller, operator) with
  | none =>
      have hb : s.approved_for_all caller operator = false := by
        unfold Erc1155.approved_for_all
        rw [hap]
        rfl
      rw [if_neg (by simp [hb])]
  | some b =>
      cases b with
      | false =>
          have hb : s.approved_for_all caller operator = false := by
            unfold Erc1155.approved_for_all
            rw [hap]
            rfl
          rw [if_neg (by simp [hb])]
      | true =>
          have hb : s.approved_for_all caller operator = true := by
            unfold Erc1155.approved_for_all
            rw [hap]
            rfl
          rw [if_pos hb]

/-- Shared helper: the two possible storages after set_approval_for_all. -/
theorem set_approval_for_all_some {s s' : Erc1155} {caller operator : AccountId} {approved : Bool}
    (h : outState (s.set_approval_for_all caller operator approved) = some s') :
    s' = s ∨ (operator ≠ caller ∧
      s' = { s with operator_approvals := insertKV s.operator_approvals (caller, operator) approved }) := by
  by_cases hne : operator = caller
  · left
    simp only [Erc1155.set_approval_for_all, if_pos hne, outState] at h
    exact (Option.some.inj h).symm
  · right
    refine ⟨hne, ?_⟩
    rw [set_approval_for_all_ok_eq s caller operator approved hne] at h
    simp only [outState] at h
    exact (Option.some.inj h).symm

/-- C7: with distinct accounts, set_approval_for_all succeeds, recording
the flag under the key (caller, operator), overwriting any prior value;
reading it back with is_approved_for_all yields exactly the flag that
was set. Repeating with true keeps it true, and a later call with false
resets it, both being instances of this statement. -/
theorem set_approval_overwrites (s : Erc1155) (a b : AccountId) (f : Bool)
    (hne : a ≠ b) :
    s.set_approval_for_all a b f
      = .ok { s with operator_approvals := insertKV s.operator_approvals (a, b) f } ∧
    Erc1155.is_approved_for_all
      { s with operator_approvals := insertKV s.operator_approvals (a, b) f } a b = f := by
  constructor
  · exact set_approval_for_all_ok_eq s a b f (Ne.symm hne)
  · simp only [Erc1155.is_approved_for_all, Erc1155.approved_for_all]
    rw [lookupKV_insertKV_self]
    rfl

/-- Witness for C7 at a concrete input. -/
theorem set_approval_overwrites_witness :
    Erc1155.new.set_approval_for_all 1 2 true
      = .ok { Erc1155.new with
          operator_approvals := insertKV Erc1155.new.operator_approvals (1, 2) true } ∧
    Erc1155.is_approved_for_all
      { Erc1155.new with
          operator_approvals := insertKV Erc1155.new.operator_approvals (1, 2) true } 1 2 = true :=
  set_approval_overwrites Erc1155.new 1 2 true (by decide)

/-- C8: with operator distinct from the caller, set_approval_for_all
always succeeds: the self-approval check is its only error path, and in
particular the CannotFetchValue branch is unreachable, because the
get_mut lookup cannot miss when the stored flag was read as true. -/
theorem set_approval_no_other_error (s : Erc1155) (caller operator : AccountId)
    (approved : Bool) (hne : operator ≠ caller) :
    (s.set_approval_for_all caller operator approved).isOk = true := by
  rw [set_approval_for_all_ok_eq s caller operator approved hne]
  rfl

/-- Witness for C8 at a concrete input. -/
theorem set_approval_no_other_error_witness :
    (Erc1155.new.set_approval_for_all 1 2 false).isOk = true :=
  set_approval_no_other_error Erc1155.new 1 2 false (by decide)

/-! Outcome destructors and error inversions for the primitives. -/

/-- An outcome leaving a storage is a success or a typed error. -/
theorem outState_some {σ : Type} {o : Outcome σ} {s' : σ} (h : outState o = some s') :
    o = .ok s' ∨ ∃ e, o = .err e s' := by
  cases o with
  | ok s =>
      left
      simp only [outState] at h
      rw [Option.some.inj h]
  | err e s =>
      right
      refine ⟨e, ?_⟩
      simp only [outState] at h
      rw [Option.some.inj h]
  | panic => exact Option.noConfusion h

/-- Shared helper: the transfer rule errs only on insufficient balance,
leaving the state unchanged. -/
theorem transfer_token_from_err_inv {s s' : Erc1155} {from_ to_ : AccountId} {id : TokenId}
    {value : TokenBalance} {e : Error}
    (h : s.transfer_token_from from_ to_ id value = .err e s') :
    e = .InsufficientBalance ∧ s' = s ∧ s.balance_of_or_zero from_ id < value := by
  simp only [Erc1155.transfer_token_from, checkedAdd] at h
  by_cases hlt : s.balance_of_or_zero from_ id < value
  · rw [if_pos hlt] at h
    injection h with h1 h2
    exact ⟨h1.symm, h2.symm, hlt⟩
  · rw [if_neg hlt] at h
    by_cases hov : Erc1155.balance_of_or_zero
        { s with balances := insertKV s.balances (from_, id) (s.balance_of_or_zero from_ id - value) }
        to_ id + value < U128MOD
    · rw [if_pos hov] at h
      exact Outcome.noConfusion h
    · rw [if_neg hov] at h
      exact Outcome.noConfusion h

/-- Shared helper: the debit rule errs only on insufficient balance,
leaving the state unchanged. -/
theorem remove_token_from_err_inv {s s' : Erc1155} {from_ : AccountId} {id : TokenId}
    {value : TokenBalance} {e : Error}
    (h : s.remove_token_from from_ id value = .err e s') :
    e = .InsufficientBalance ∧ s' = s ∧ s.balance_of_or_zero from_ id < value := by
  simp only [Erc1155.remove_token_from] at h
  by_cases hlt : s.balance_of_or_zero from_ id < value
  · rw [if_pos hlt] at h
    injection h with h1 h2
    exact ⟨h1.symm, h2.symm, hlt⟩
  · rw [if_neg hlt] at h
    exact Outcome.noConfusion h

/-- Shared helper: the credit rule never returns a typed error. -/
theorem add_token_to_err_inv {s s' : Erc1155} {to_ : AccountId} {id : TokenId}
    {value : TokenBalance} {e : Error}
    (h : s.add_token_to to_ id value = .err e s') : False := by
  simp only [Erc1155.add_token_to, checkedAdd] at h
  by_cases hov : s.balance_of_or_zero to_ id + value < U128MOD
  · rw [if_pos hov] at h
    exact Outcome.noConfusion h
  · rw [if_neg hov] at h
    exact Outcome.noConfusion h

/-- Shared helper: the two possible storages after the transfer rule. -/
theorem transfer_token_from_some {s s' : Erc1155} {from_ to_ : AccountId} {id : TokenId}
    {value : TokenBalance}
    (h : outState (s.transfer_token_from from_ to_ id value) = some s') :
    s' = s ∨ s' = afterTransfer s from_ to_ id value := by
  rcases outState_some h with hok | ⟨e, herr⟩
  · right
    exact (transfer_token_from_ok_inv hok).2.2
  · left
    exact (transfer_token_from_err_inv herr).2.1

/-- Shared helper: the two possible storages after the debit rule. -/
theorem remove_token_from_some {s s' : Erc1155} {from_ : AccountId} {id : TokenId}
    {value : TokenBalance}
    (h : outState (s.remove_token_from from_ id value) = some s') :
    s' = s ∨ s' = debited s from_ id value := by
  rcases outState_some h with hok | ⟨e, herr⟩
  · right
    exact (remove_token_from_ok_inv hok).2
  · left
    exact (remove_token_from_err_inv herr).2.1

/-- Shared helper: the storage after the credit rule. -/
theorem add_token_to_some {s s' : Erc1155} {to_ : AccountId} {id : TokenId}
    {value : TokenBalance}
    (h : outState (s.add_token_to to_ id value) = some s') :
    s' = credited s to_ id value := by
  rcases outState_some h with hok | ⟨e, herr⟩
  · exact (add_token_to_ok_inv hok).2
  · exact absurd herr (fun hc => add_token_to_err_inv hc)

/-- Shared helper: a relation preserved by every step of a loop is
preserved by the whole loop, whatever storage the loop leaves. -/
theorem runSteps_rel {α : Type} (R : Erc1155 → Erc1155 → Prop)
    (hrefl : ∀ s, R s s)
    (htrans : ∀ a b c, R a b → R b c → R a c)
    (step : α → Erc1155 → Outcome Erc1155)
    (hstep : ∀ x s s', outState (step x s) = some s' → R s s') :
    ∀ (l : List α) (s s' : Erc1155), outState (runSteps step l s) = some s' → R s s' := by
  intro l
  induction l with
  | nil =>
      intro s s' h
      simp only [runSteps, outState] at h
      rw [← Option.some.inj h]
      exact hrefl s
  | cons x xs ih =>
      intro s s' h
      simp only [runSteps] at h
      cases hx : step x s with
      | ok t =>
          rw [hx] at h
          exact htrans s t s' (hstep x s t (by rw [hx]; rfl)) (ih t s' h)
      | err e t =>
          rw [hx] at h
          have ht : t = s' := Option.some.inj h
          rw [← ht]
          exact hstep x s t (by rw [hx]; rfl)
      | panic =>
          rw [hx] at h
          exact Option.noConfusion h

/-! No balance operation touches the approvals map. -/

/-- Shared helper: transfers leave the approvals map untouched. -/
theorem transfer_token_from_approvals {s s' : Erc1155} {from_ to_ : AccountId} {id : TokenId}
    {value : TokenBalance}
    (h : outState (s.transfer_token_from from_ to_ id value) = some s') :
    s'.operator_approvals = s.operator_approvals := by
  rcases transfer_token_from_some h with rfl | rfl
  · rfl
  · rfl

/-- Shared helper: debits leave the approvals map untouched. -/
theorem remove_token_from_approvals {s s' : Erc1155} {from_ : AccountId} {id : TokenId}
    {value : TokenBalance}
    (h : outState (s.remove_token_from from_ id value) = some s') :
    s'.operator_approvals = s.operator_approvals := by
  rcases remove_token_from_some h with rfl | rfl
  · rfl
  · rfl

/-- Shared helper: credits leave the approvals map untouched. -/
theorem add_token_to_approvals {s s' : Erc1155} {to_ : AccountId} {id : TokenId}
    {value : TokenBalance}
    (h : outState (s.add_token_to to_ id value) = some s') :
    s'.operator_approvals = s.operator_approvals := by
  rw [add_token_to_some h]
  rfl

theorem approvalsEq_refl (s : Erc1155) : approvalsEq s s := rfl

theorem approvalsEq_trans (a b c : Erc1155) (h1 : approvalsEq a b) (h2 : approvalsEq b c) :
    approvalsEq a c := h2.trans h1

/-- Shared helper: safe_transfer_from leaves the approvals map untouched. -/
theorem safe_transfer_from_approvals {s s' : Erc1155} {caller from_ to_ : AccountId}
    {id : TokenId} {value : TokenBalance}
    (h : outState (s.safe_transfer_from caller from_ to_ id value) = some s') :
    s'.operator_approvals = s.operator_approvals := by
  by_cases hto : to_ = zero_account
  · simp only [Erc1155.safe_transfer_from, if_pos hto, outState] at h
    rw [Option.some.inj h]
  · simp only [Erc1155.safe_transfer_from, if_neg hto] at h
    exact transfer_token_from_approvals h

/-- Shared helper: safe_batch_transfer_from leaves the approvals map
untouched. -/
theorem safe_batch_transfer_from_approvals {s s' : Erc1155} {caller from_ to_ : AccountId}
    {ids : List TokenId} {values : List TokenBalance}
    (h : outState (s.safe_batch_transfer_from caller from_ to_ ids values) = some s') :
    s'.operator_approvals = s.operator_approvals := by
  simp only [Erc1155.safe_batch_transfer_from] at h
  by_cases hlen : ids.length ≠ values.length
  · rw [if_pos hlen] at h
    simp only [outState] at h
    rw [Option.some.inj h]
  · rw [if_neg hlen] at h
    by_cases hto : to_ = zero_account
    · rw [if_pos hto] at h
      simp only [outState] at h
      rw [Option.some.inj h]
    · rw [if_neg hto] at h
      exact runSteps_rel approvalsEq approvalsEq_refl approvalsEq_trans _
        (fun iv t t' hiv => transfer_token_from_approvals hiv) _ _ _ h

/-- Shared helper: mint leaves the approvals map untouched. -/
theorem mint_approvals {s s' : Erc1155} {caller to_ : AccountId} {id : TokenId}
    {value : TokenBalance}
    (h : outState (s.mint caller to_ id value) = some s') :
    s'.operator_approvals = s.operator_approvals := by
  by_cases hto : to_ = zero_account
  · simp only [Erc1155.mint, if_pos hto, outState] at h
    rw [Option.some.inj h]
  · simp only [Erc1155.mint, if_neg hto] at h
    exact add_token_to_approvals h

/-- Shared helper: mint_batch leaves the approvals map untouched. -/
theorem mint_batch_approvals {s s' : Erc1155} {caller to_ : AccountId}
    {ids : List TokenId} {values : List TokenBalance}
    (h : outState (s.mint_batch caller to_ ids values) = some s') :
    s'.operator_approvals = s.operator_approvals := by
  simp only [Erc1155.mint_batch] at h
  by_cases hto : to_ = zero_account
  · rw [if_pos hto] at h
    simp only [outState] at h
    rw [Option.some.inj h]
  · rw [if_neg hto] at h
    by_cases hlen : ids.length ≠ values.length
    · rw [if_pos hlen] at h
      simp only [outState] at h
      rw [Option.some.inj h]
    · rw [if_neg hlen] at h
      exact runSteps_rel approvalsEq approvalsEq_refl approvalsEq_trans _
        (fun iv t t' hiv => add_token_to_approvals hiv) _ _ _ h

/-- Shared helper: burn leaves the approvals map untouched. -/
theorem burn_approvals {s s' : Erc1155} {caller from_ : AccountId} {id : TokenId}
    {value : TokenBalance}
    (h : outState (s.burn caller from_ id value) = some s') :
    s'.operator_approvals = s.operator_approvals := by
  by_cases hfrom : from_ = zero_account
  · simp only [Erc1155.burn, if_pos hfrom, outState] at h
    rw [Option.some.inj h]
  · simp only [Erc1155.burn, if_neg hfrom] at h
    exact remove_token_from_approvals h

/-- Shared helper: burn_batch leaves the approvals map untouched. -/
theorem burn_batch_approvals {s s' : Erc1155} {caller from_ : AccountId}
    {ids : List TokenId} {values : List TokenBalance}
    (h : outState (s.burn_batch caller from_ ids values) = some s') :
    s'.operator_approvals = s.operator_approvals := by
  simp only [Erc1155.burn_batch] at h
  by_cases hfrom : from_ = zero_account
  · rw [if_pos hfrom] at h
    simp only [outState] at h
    rw [Option.some.inj h]
  · rw [if_neg hfrom] at h
    by_cases hlen : ids.length ≠ values.length
    · rw [if_pos hlen] at h
      simp only [outState] at h
      rw [Option.some.inj h]
    · rw [if_neg hlen] at h
      exact runSteps_rel approvalsEq approvalsEq_refl approvalsEq_trans _
        (fun iv t t' hiv => remove_token_from_approvals hiv) _ _ _ h

/-- In any reachable state, no (account, account) key is present in the
approvals map: the grant site rejects self-approval and nothing else
writes that map. -/
theorem reachable_no_self_approval {s : Erc1155} (h : Reachable s) :
    ∀ c : AccountId, lookupKV s.operator_approvals (c, c) = none := by
  induction h with
  | new => intro c; rfl
  | set_approval_for_all caller operator approved hs hout ih =>
      intro c
      rcases set_approval_for_all_some hout with rfl | ⟨hne, rfl⟩
      · exact ih c
      · rw [lookupKV_insertKV_ne]
        · exact ih c
        · intro hk
          have h1 : c = caller := congrArg Prod.fst hk
          have h2 : c = operator := congrArg Prod.snd hk
          exact hne (h2.symm.trans h1)
  | safe_transfer_from caller from_ to_ id value hs hout ih =>
      intro c
      rw [safe_transfer_from_approvals hout]
      exact ih c
  | safe_batch_transfer_from caller from_ to_ ids values hs hout ih =>
      intro c
      rw [safe_batch_transfer_from_approvals hout]
      exact ih c
  | mint caller to_ id value hs hout ih =>
      intro c
      rw [mint_approvals hout]
      exact ih c
  | mint_batch caller to_ ids values hs hout ih =>
      intro c
      rw [mint_batch_approvals hout]
      exact ih c
  | burn caller from_ id value hs hout ih =>
      intro c
      rw [burn_approvals hout]
      exact ih c
  | burn_batch caller from_ ids values hs hout ih =>
      intro c
      rw [burn_batch_approvals hout]
      exact ih c

/-- C6: set_approval_for_all with operator equal to the caller fails
with ApprovalForSelf whatever the flag, leaving the state unchanged, and
is_approved_for_all(caller, caller) afterwards is false in any state the
ledger can actually reach. -/
theorem set_approval_for_self_rejected (s : Erc1155) (c : AccountId) (approved : Bool)
    (hr : Reachable s) :
    s.set_approval_for_all c c approved = .err .ApprovalForSelf s ∧
    s.is_approved_for_all c c = false := by
  constructor
  · simp [Erc1155.set_approval_for_all]
  · unfold Erc1155.is_approved_for_all Erc1155.approved_for_all
    rw [reachable_no_self_approval hr c]
    rfl

/-- Witness for C6 at a concrete input. -/
theorem set_approval_for_self_rejected_witness :
    Erc1155.new.set_approval_for_all 1 1 true = .err .ApprovalForSelf Erc1155.new ∧
    Erc1155.new.is_approved_for_all 1 1 = false :=
  set_approval_for_self_rejected Erc1155.new 1 true Reachable.new

/-! Batch loops: stop at the first failing index. -/

/-- Shared helper: if the loop succeeds on a prefix and the next step
fails, the whole loop fails with that error and the prefix's mutations,
never reaching the later elements. -/
theorem runSteps_append_err {α : Type} (step : α → Erc1155 → Outcome Erc1155)
    (pre : List α) (x : α) (post : List α) :
    ∀ (s s1 s2 : Erc1155) (e : Error),
      runSteps step pre s = .ok s1 → step x s1 = .err e s2 →
      runSteps step (pre ++ x :: post) s = .err e s2 := by
  induction pre with
  | nil =>
      intro s s1 s2 e h1 h2
      have hs : s = s1 := Outcome.ok.inj h1
      subst hs
      simp only [List.nil_append, runSteps]
      rw [h2]
  | cons y ys ih =>
      intro s s1 s2 e h1 h2
      simp only [runSteps] at h1
      simp only [List.cons_append, runSteps]
      cases hy : step y s with
      | ok t =>
          rw [hy] at h1
          exact ih t s1 s2 e h1 h2
      | err e' t =>
          rw [hy] at h1
          exact Outcome.noConfusion h1
      | panic =>
          rw [hy] at h1
          exact Outcome.noConfusion h1

/-- C4: burn_batch on a two-element batch whose first debit is
undercovered fails with InsufficientBalance before touching the second
id (the returned state is the input state, so balance_of(from, id2) is
unchanged); and in general burn_batch and safe_batch_transfer_from stop
at the first failing index, returning its error and the state holding
exactly the mutations of the earlier indices. -/
theorem batch_stops_at_first_failure :
    (∀ (s : Erc1155) (caller from_ : AccountId) (id1 id2 : TokenId) (v1 v2 : TokenBalance),
        from_ ≠ zero_account → s.balance_of from_ id1 < v1 →
        s.burn_batch caller from_ [id1, id2] [v1, v2] = .err .InsufficientBalance s) ∧
    (∀ (s s1 s2 : Erc1155) (caller from_ : AccountId) (preIds : List TokenId)
        (preVs : List TokenBalance) (id : TokenId) (v : TokenBalance)
        (postIds : List TokenId) (postVs : List TokenBalance) (e : Error),
        from_ ≠ zero_account → preIds.length = preVs.length →
        postIds.length = postVs.length →
        runSteps (fun iv t => t.remove_token_from from_ iv.1 iv.2) (preIds.zip preVs) s = .ok s1 →
        s1.remove_token_from from_ id v = .err e s2 →
        s.burn_batch caller from_ (preIds ++ id :: postIds) (preVs ++ v :: postVs) = .err e s2) ∧
    (∀ (s s1 s2 : Erc1155) (caller from_ to_ : AccountId) (preIds : List TokenId)
        (preVs : List TokenBalance) (id : TokenId) (v : TokenBalance)
        (postIds : List TokenId) (postVs : List TokenBalance) (e : Error),
        to_ ≠ zero_account → preIds.length = preVs.length →
        postIds.length = postVs.length →
        runSteps (fun iv t => t.transfer_token_from from_ to_ iv.1 iv.2) (preIds.zip preVs) s
          = .ok s1 →
        s1.transfer_token_from from_ to_ id v = .err e s2 →
        s.safe_batch_transfer_from caller from_ to_ (preIds ++ id :: postIds)
          (preVs ++ v :: postVs) = .err e s2) := by
  refine ⟨?_, ?_, ?_⟩
  · intro s caller from_ id1 id2 v1 v2 hfrom hlt
    have hlt' : s.balance_of_or_zero from_ id1 < v1 := hlt
    have hstep : s.remove_token_from from_ id1 v1 = .err .InsufficientBalance s := by
      unfold Erc1155.remove_token_from
      rw [if_pos hlt']
    have hrun : runSteps (fun iv t => t.remove_token_from from_ iv.1 iv.2)
        ([] ++ (id1, v1) :: [(id2, v2)]) s = .err .InsufficientBalance s :=
      runSteps_append_err _ [] (id1, v1) [(id2, v2)] s s s .InsufficientBalance rfl hstep
    simp only [Erc1155.burn_batch, if_neg hfrom]
    rw [if_neg (fun hc => hc rfl : ¬ ([id1, id2].length ≠ [v1, v2].length))]
    exact hrun
  · intro s s1 s2 caller from_ preIds preVs id v postIds postVs e hfrom hlen1 hlen2 hpre hx
    have hlen : ¬ ((preIds ++ id :: postIds).length ≠ (preVs ++ v :: postVs).length) := by
      simp [List.length_append, hlen1, hlen2]
    simp only [Erc1155.burn_batch, if_neg hfrom]
    rw [if_neg hlen, List.zip_append hlen1, List.zip_cons_cons]
    exact runSteps_append_err _ _ _ _ _ _ _ _ hpre hx
  · intro s s1 s2 caller from_ to_ preIds preVs id v postIds postVs e hto hlen1 hlen2 hpre hx
    have hlen : ¬ ((preIds ++ id :: postIds).length ≠ (preVs ++ v :: postVs).length) := by
      simp [List.length_append, hlen1, hlen2]
    simp only [Erc1155.safe_batch_transfer_from]
    rw [if_neg hlen, if_neg hto, List.zip_append hlen1, List.zip_cons_cons]
    exact runSteps_append_err _ _ _ _ _ _ _ _ hpre hx

/-- Witness for C4 at a concrete input. -/
theorem batch_stops_at_first_failure_witness :
    Erc1155.new.burn_batch 2 1 [0, 1] [5, 7] = .err .InsufficientBalance Erc1155.new :=
  batch_stops_at_first_failure.1 Erc1155.new 2 1 0 1 5 7 (by decide) (by decide)

/-! Key-set monotonicity: entries are only inserted or updated. -/

theorem keysMono_refl {κ ν : Type} [DecidableEq κ] (m : List (κ × ν)) : keysMono m m :=
  fun _ h => h

theorem keysMono_trans {κ ν : Type} [DecidableEq κ] (a b c : List (κ × ν))
    (h1 : keysMono a b) (h2 : keysMono b c) : keysMono a c :=
  fun k h => h2 k (h1 k h)

theorem keysMono_insertKV {κ ν : Type} [DecidableEq κ] (m : List (κ × ν)) (k : κ) (v : ν) :
    keysMono m (insertKV m k v) :=
  fun k' h => lookupKV_insertKV_isSome m k k' v h

theorem stateMono_refl (s : Erc1155) : stateMono s s :=
  ⟨keysMono_refl _, keysMono_refl _⟩

theorem stateMono_trans (a b c : Erc1155) (h1 : stateMono a b) (h2 : stateMono b c) :
    stateMono a c :=
  ⟨keysMono_trans _ _ _ h1.1 h2.1, keysMono_trans _ _ _ h1.2 h2.2⟩

theorem stateMono_debited (s : Erc1155) (from_ : AccountId) (id : TokenId)
    (value : TokenBalance) : stateMono s (debited s from_ id value) :=
  ⟨keysMono_insertKV _ _ _, keysMono_refl _⟩

theorem stateMono_credited (s : Erc1155) (to_ : AccountId) (id : TokenId)
    (value : TokenBalance) : stateMono s (credited s to_ id value) :=
  ⟨keysMono_insertKV _ _ _, keysMono_refl _⟩

theorem stateMono_afterTransfer (s : Erc1155) (from_ to_ : AccountId) (id : TokenId)
    (value : TokenBalance) : stateMono s (afterTransfer s from_ to_ id value) :=
  stateMono_trans _ _ _ (stateMono_debited s from_ id value)
    ⟨keysMono_insertKV _ _ _, keysMono_refl _⟩

/-- Shared helper: the transfer rule only inserts or updates. -/
theorem transfer_token_from_mono {s s' : Erc1155} {from_ to_ : AccountId} {id : TokenId}
    {value : TokenBalance}
    (h : outState (s.transfer_token_from from_ to_ id value) = some s') :
    stateMono s s' := by
  rcases transfer_token_from_some h with rfl | rfl
  · exact stateMono_refl _
  · exact stateMono_afterTransfer s from_ to_ id value

/-- Shared helper: the debit rule only inserts or updates. -/
theorem remove_token_from_mono {s s' : Erc1155} {from_ : AccountId} {id : TokenId}
    {value : TokenBalance}
    (h : outState (s.remove_token_from from_ id value) = some s') :
    stateMono s s' := by
  rcases remove_token_from_some h with rfl | rfl
  · exact stateMono_refl _
  · exact stateMono_debited s from_ id value

/-- Shared helper: the credit rule only inserts or updates. -/
theorem add_token_to_mono {s s' : Erc1155} {to_ : AccountId} {id : TokenId}
    {value : TokenBalance}
    (h : outState (s.add_token_to to_ id value) = some s') :
    stateMono s s' := by
  rw [add_token_to_some h]
  exact stateMono_credited s to_ id value

/-- C9: both maps are empty at construction, and every mutating message
(set_approval_for_all, safe_transfer_from, safe_batch_transfer_from,
mint, mint_batch, burn, burn_batch), whether it returns ok or an error,
leaves each map holding a superset of the keys it held before: entries
are only inserted or updated, never removed. -/
theorem maps_start_empty_and_grow_monotonically :
    Erc1155.new.balances = [] ∧ Erc1155.new.operator_approvals = [] ∧
    (∀ (s s' : Erc1155) (caller operator : AccountId) (approved : Bool),
        outState (s.set_approval_for_all caller operator approved) = some s' → stateMono s s') ∧
    (∀ (s s' : Erc1155) (caller from_ to_ : AccountId) (id : TokenId) (value : TokenBalance),
        outState (s.safe_transfer_from caller from_ to_ id value) = some s' → stateMono s s') ∧
    (∀ (s s' : Erc1155) (caller from_ to_ : AccountId) (ids : List TokenId)
        (values : List TokenBalance),
        outState (s.safe_batch_transfer_from caller from_ to_ ids values) = some s' →
        stateMono s s') ∧
    (∀ (s s' : Erc1155) (caller to_ : AccountId) (id : TokenId) (value : TokenBalance),
        outState (s.mint caller to_ id value) = some s' → stateMono s s') ∧
    (∀ (s s' : Erc1155) (caller to_ : AccountId) (ids : List TokenId)
        (values : List TokenBalance),
        outState (s.mint_batch caller to_ ids values) = some s' → stateMono s s') ∧
    (∀ (s s' : Erc1155) (caller from_ : AccountId) (id : TokenId) (value : TokenBalance),
        outState (s.burn caller from_ id value) = some s' → stateMono s s') ∧
    (∀ (s s' : Erc1155) (caller from_ : AccountId) (ids : List TokenId)
        (values : List TokenBalance),
        outState (s.burn_batch caller from_ ids values) = some s' → stateMono s s') := by
  refine ⟨rfl, rfl, ?_, ?_, ?_, ?_, ?_, ?_, ?_⟩
  · intro s s' caller operator approved h
    rcases set_approval_for_all_some h with rfl | ⟨hne, rfl⟩
    · exact stateMono_refl _
    · exact ⟨keysMono_refl _, keysMono_insertKV _ _ _⟩
  · intro s s' caller from_ to_ id value h
    by_cases hto : to_ = zero_account
    · simp only [Erc1155.safe_transfer_from, if_pos hto, outState] at h
      rw [← Option.some.inj h]
      exact stateMono_refl s
    · simp only [Erc1155.safe_transfer_from, if_neg hto] at h
      exact transfer_token_from_mono h
  · intro s s' caller from_ to_ ids values h
    simp only [Erc1155.safe_batch_transfer_from] at h
    by_cases hlen : ids.length ≠ values.length
    · rw [if_pos hlen] at h
      simp only [outState] at h
      rw [← Option.some.inj h]
      exact stateMono_refl s
    · rw [if_neg hlen] at h
      by_cases hto : to_ = zero_account
      · rw [if_pos hto] at h
        simp only [outState] at h
        rw [← Option.some.inj h]
        exact stateMono_refl s
      · rw [if_neg hto] at h
        exact runSteps_rel stateMono stateMono_refl stateMono_trans _
          (fun iv t t' hiv => transfer_token_from_mono hiv) _ _ _ h
  · intro s s' caller to_ id value h
    by_cases hto : to_ = zero_account
    · simp only [Erc1155.mint, if_pos hto, outState] at h
      rw [← Option.some.inj h]
      exact stateMono_refl s
    · simp only [Erc1155.mint, if_neg hto] at h
      exact add_token_to_mono h
  · intro s s' caller to_ ids values h
    simp only [Erc1155.mint_batch] at h
    by_cases hto : to_ = zero_account
    · rw [if_pos hto] at h
      simp only [outState] at h
      rw [← Option.some.inj h]
      exact stateMono_refl s
    · rw [if_neg hto] at h
      by_cases hlen : ids.length ≠ values.length
      · rw [if_pos hlen] at h
        simp only [outState] at h
        rw [← Option.some.inj h]
        exact stateMono_refl s
      · rw [if_neg hlen] at h
        exact runSteps_rel stateMono stateMono_refl stateMono_trans _
          (fun iv t t' hiv => add_token_to_mono hiv) _ _ _ h
  · intro s s' caller from_ id value h
    by_cases hfrom : from_ = zero_account
    · simp only [Erc1155.burn, if_pos hfrom, outState] at h
      rw [← Option.some.inj h]
      exact stateMono_refl s
    · simp only [Erc1155.burn, if_neg hfrom] at h
      exact remove_token_from_mono h
  · intro s s' caller from_ ids values h
    simp only [Erc1155.burn_batch] at h
    by_cases hfrom : from_ = zero_account
    · rw [if_pos hfrom] at h
      simp only [outState] at h
      rw [← Option.some.inj h]
      exact stateMono_refl s
    · rw [if_neg hfrom] at h
      by_cases hlen : ids.length ≠ values.length
      · rw [if_pos hlen] at h
        simp only [outState] at h
        rw [← Option.some.inj h]
        exact stateMono_refl s
      · rw [if_neg hlen] at h
        exact runSteps_rel stateMono stateMono_refl stateMono_trans _
          (fun iv t t' hiv => remove_token_from_mono hiv) _ _ _ h

/-- Witness for C9 at a concrete input. -/
theorem maps_start_empty_and_grow_monotonically_witness :
    stateMono Erc1155.new (Erc1155.mk [((1, 0), 5)] []) :=
  maps_start_empty_and_grow_monotonically.2.2.2.2.2.1 Erc1155.new
    (Erc1155.mk [((1, 0), 5)] []) 1 1 0 5 (by decide)

end Erc1155Lib
